import Mathlib

/-!
# Shallow embedding of `neurogym/envs/nalt_rdm.py`

The `nalt_RDM` environment is a perceptual decision-making task with
`n_ch` choices.  A trial is split into three consecutive phases —
fixation, stimulus, decision — and a per-timestep step function maps
(elapsed time, action) to (reward, trial-termination flag, ground-truth
one-hot vector).

Times and rewards are modelled as rationals.  Randomness enters the
embedding as explicit parameters: the draws taken from the
environment's owned random source (`self.rng`) are the arguments
`stimDraw`, `gtDraw`, `cohDraw` of `new_trial`, while the per-timestep
observation noise, which the source draws from the *global* numpy
generator via `np.random.randn`, is the separate function argument
`noise : ℕ → ℕ → ℚ` giving the additive noise term at (timestep index,
observation index).
-/

namespace NaltRDM

/-- Configuration fields set by `nalt_RDM.__init__`. -/
structure Config where
  dt : ℚ
  n : ℕ
  choices : List ℕ
  cohs : List ℚ
  fixation : ℚ
  stimulus_min : ℚ
  stimulus_mean : ℚ
  stimulus_max : ℚ
  decision : ℚ
  mean_trial_duration : ℚ
  max_trial_duration : ℚ
  R_ABORTED : ℚ
  R_CORRECT : ℚ
  R_FAIL : ℚ
  R_MISS : ℚ
  abort : Bool
deriving DecidableEq

/-- The body of `nalt_RDM.__init__(dt, timing, stimEv, n_ch)`.  The
constructor performs no validation of its inputs; it only stores and
derives fields.  `timing` is the 5-tuple
(fixation, stimulus_min, stimulus_mean, stimulus_max, decision); the
final `stimulus_min` is clipped below by `dt`
(`self.stimulus_min = np.max([self.stimulus_min, dt])`).  Python float
literals (`6.4`, `-0.1`, …) are read as exact rationals. -/
def mkConfig (dt : ℚ) (timing : ℚ × ℚ × ℚ × ℚ × ℚ) (stimEv : ℚ) (n_ch : ℕ) : Config :=
  { dt := dt
    n := n_ch
    choices := (List.range n_ch).map (fun i => i + 1)
    cohs := [0, 64 / 10, 128 / 10, 256 / 10, 512 / 10].map (fun c => c * stimEv)
    fixation := timing.1
    stimulus_min := max timing.2.1 dt
    stimulus_mean := timing.2.2.1
    stimulus_max := timing.2.2.2.1
    decision := timing.2.2.2.2
    mean_trial_duration := timing.1 + timing.2.2.1 + timing.2.2.2.2
    max_trial_duration := timing.1 + timing.2.2.2.1 + timing.2.2.2.2
    R_ABORTED := -1 / 10
    R_CORRECT := 1
    R_FAIL := 0
    R_MISS := 0
    abort := false }

/-- `nalt_RDM.__init__` as a fallible constructor.  The source has no
`raise` and no validation of the timing tuple or of `n_ch`, so every
input constructs successfully. -/
def nalt_RDM_init (dt : ℚ) (timing : ℚ × ℚ × ℚ × ℚ × ℚ) (stimEv : ℚ) (n_ch : ℕ) :
    Except String Config :=
  Except.ok (mkConfig dt timing stimEv n_ch)

/-- The warning condition of `nalt_RDM.__str__`: a banner is prepended
to the description string exactly when
`self.fixation == 0 or self.decision == 0 or self.stimulus_mean == 0`. -/
def str_warns (c : Config) : Bool :=
  if c.fixation = 0 ∨ c.decision = 0 ∨ c.stimulus_mean = 0 then true else false

/-- The configuration used by the module demo block; shared concrete
instance for evaluating the embedding. -/
def defaultConfig : Config :=
  mkConfig 100 (500, 80, 330, 1500, 500) 1 3

/-- Number of rows of `np.arange(0, tmax, dt)`: numpy documents the
length of `arange(start, stop, step)` as `ceil((stop - start) / step)`
(and `0` when that is negative). -/
def numSteps (tmax dt : ℚ) : ℕ :=
  (Int.ceil (tmax / dt)).toNat

/-- Value of observation column `j` at a stimulus-phase timestep before
noise is added, following the source's assignment order:
`obs[stimulus_period, 0] = 1`, then
`obs[stimulus_period, 1:] = (1 - coh/100)/2`, then
`obs[stimulus_period, ground_truth] = (1 + coh/100)/2`. -/
def stimValue (coh : ℚ) (ground_truth j : ℕ) : ℚ :=
  if j = ground_truth then (1 + coh / 100) / 2
  else if j = 0 then 1
  else (1 - coh / 100) / 2

/-- Entry `(k, j)` of the observation matrix built by `new_trial`:
row times are `t = k * dt` (from `np.arange(0, tmax, dt)`), the
fixation period is `0 <= t < fixation`, the stimulus period is
`fixation <= t < fixation + stimulus`; only the fixation cue (column 0)
is set during fixation, and during the stimulus the evidence values
plus the per-timestep noise term are written to columns `1..n`. -/
def obsEntry (dt fixation stimulus : ℚ) (ground_truth : ℕ) (coh : ℚ)
    (noise : ℕ → ℕ → ℚ) (k j : ℕ) : ℚ :=
  let t : ℚ := (k : ℚ) * dt
  if fixation ≤ t ∧ t < fixation + stimulus then
    stimValue coh ground_truth j + (if 1 ≤ j then noise k j else 0)
  else if 0 ≤ t ∧ t < fixation then
    (if j = 0 then 1 else 0)
  else 0

/-- The full observation matrix `self.obs` of a trial, as a list of
rows: `np.zeros((len(t), n+1))` written by the four stimulus/fixation
assignments of `new_trial`. -/
def mkObs (dt fixation stimulus tmax : ℚ) (n ground_truth : ℕ) (coh : ℚ)
    (noise : ℕ → ℕ → ℚ) : List (List ℚ) :=
  (List.range (numSteps tmax dt)).map fun k =>
    (List.range (n + 1)).map fun j => obsEntry dt fixation stimulus ground_truth coh noise k j

/-- Per-trial state written by `nalt_RDM.new_trial`. -/
structure TrialVars where
  tmax : ℚ
  fixation_0 : ℚ
  fixation_1 : ℚ
  stimulus_0 : ℚ
  stimulus_1 : ℚ
  decision_0 : ℚ
  decision_1 : ℚ
  ground_truth : ℕ
  coh : ℚ
  obs : List (List ℚ)
deriving DecidableEq

/-- The effective (fixation, stimulus, decision) durations of a trial:
the `durs` override is used wholesale when present; otherwise fixation
and decision are the configured constants and the stimulus duration is
the truncated-exponential draw from the owned random source
(`tasktools.trunc_exp(self.rng, ...)`), which enters the embedding as
the parameter `stimDraw`. -/
def effDurs (c : Config) (durs : Option (ℚ × ℚ × ℚ)) (stimDraw : ℚ) : ℚ × ℚ × ℚ :=
  match durs with
  | some d => d
  | none => (c.fixation, stimDraw, c.decision)

/-- `nalt_RDM.new_trial(**kwargs)`.  `durs`, `gtOverride`, `cohOverride`
model the optional kwargs `durs`, `gt`, `coh`.  When not overridden,
`ground_truth = self.rng.choice(self.choices)` and
`coh = self.rng.choice(self.cohs)` are draws from the owned random
source, entering as the parameters `gtDraw` and `cohDraw`; the
observation noise `np.random.randn(...) * self.sigma_dt` is drawn from
the global numpy generator and enters as the separate function
`noise`. -/
def new_trial (c : Config) (durs : Option (ℚ × ℚ × ℚ)) (gtOverride : Option ℕ)
    (cohOverride : Option ℚ) (stimDraw : ℚ) (gtDraw : ℕ) (cohDraw : ℚ)
    (noise : ℕ → ℕ → ℚ) : TrialVars :=
  let fsd := effDurs c durs stimDraw
  let fixation := fsd.1
  let stimulus := fsd.2.1
  let decision := fsd.2.2
  let tmax := fixation + stimulus + decision
  let ground_truth := gtOverride.getD gtDraw
  let coh := cohOverride.getD cohDraw
  { tmax := tmax
    fixation_0 := 0
    fixation_1 := fixation
    stimulus_0 := fixation
    stimulus_1 := fixation + stimulus
    decision_0 := fixation + stimulus
    decision_1 := fixation + stimulus + decision
    ground_truth := ground_truth
    coh := coh
    obs := mkObs c.dt fixation stimulus tmax c.n ground_truth coh noise }

/-- Modelled from the spec: `tasktools.new_trial` lives in
`neurogym.ops.tasktools`, which is not under src/.  Per the spec, the
miss rule is applied uniformly after the phase-specific reward
computation, "whenever elapsed time reaches/exceeds total trial
duration without an action having ended the trial": the reward is
overridden to the miss reward and the trial is forced to end. -/
def tasktools_new_trial (t tmax _dt : ℚ) (nt : Bool) (miss reward : ℚ) : ℚ × Bool :=
  if tmax ≤ t ∧ nt = false then (miss, true) else (reward, nt)

/-- The tuple computed by one call of `nalt_RDM._step`: the reward, the
`new_trial` flag of the info dict, the ground-truth one-hot vector
`gt`, and the row index `int(self.t / self.dt)` of the observation
returned. -/
structure StepOut where
  reward : ℚ
  new_trial : Bool
  gt : List ℚ
  obsIdx : ℕ
deriving DecidableEq

/-- `nalt_RDM._step(action)` at elapsed time `t = self.t`, given the
current trial variables.  Branch structure as in the source: the
fixation window is checked first, then the decision window, all other
times fall to the `else` arm; the reward/flag pair then passes through
`tasktools.new_trial`. -/
def nalt_step (c : Config) (tr : TrialVars) (t : ℚ) (action : ℕ) : StepOut :=
  let base : ℚ × Bool × List ℚ :=
    if tr.fixation_0 ≤ t ∧ t < tr.fixation_1 then
      (if action ≠ 0 then (c.R_ABORTED, c.abort, (List.replicate (c.n + 1) (0 : ℚ)).set 0 1)
       else (0, false, (List.replicate (c.n + 1) (0 : ℚ)).set 0 1))
    else if tr.decision_0 ≤ t ∧ t < tr.decision_1 then
      (if tr.ground_truth = action then c.R_CORRECT
       else if tr.ground_truth ≠ 0 then c.R_FAIL else 0,
       decide (action ≠ 0),
       (List.replicate (c.n + 1) (0 : ℚ)).set tr.ground_truth 1)
    else
      (0, false, (List.replicate (c.n + 1) (0 : ℚ)).set 0 1)
  let rn := tasktools_new_trial t tr.tmax c.dt base.2.1 c.R_MISS base.1
  { reward := rn.1
    new_trial := rn.2
    gt := base.2.2
    obsIdx := (Int.floor (t / c.dt)).toNat }

/-- Observation value of trial `tr` at timestep `k`, column `j`
(out-of-range indices read as `0`). -/
def obsAt (tr : TrialVars) (k j : ℕ) : ℚ :=
  (tr.obs.getD k []).getD j 0

/-! ## Helper lemmas -/

lemma getD_out {α : Type} (l : List α) (i : ℕ) (d : α) (h : l.length ≤ i) :
    l.getD i d = d := by
  rw [List.getD_eq_getElem?_getD, List.getElem?_eq_none h]
  rfl

lemma new_trial_eq (c : Config) (durs : Option (ℚ × ℚ × ℚ)) (gtO : Option ℕ)
    (cohO : Option ℚ) (sD : ℚ) (gD : ℕ) (cD : ℚ) (noise : ℕ → ℕ → ℚ) :
    new_trial c durs gtO cohO sD gD cD noise =
      { tmax := (effDurs c durs sD).1 + (effDurs c durs sD).2.1 + (effDurs c durs sD).2.2
        fixation_0 := 0
        fixation_1 := (effDurs c durs sD).1
        stimulus_0 := (effDurs c durs sD).1
        stimulus_1 := (effDurs c durs sD).1 + (effDurs c durs sD).2.1
        decision_0 := (effDurs c durs sD).1 + (effDurs c durs sD).2.1
        decision_1 := (effDurs c durs sD).1 + (effDurs c durs sD).2.1 + (effDurs c durs sD).2.2
        ground_truth := gtO.getD gD
        coh := cohO.getD cD
        obs := mkObs c.dt (effDurs c durs sD).1 (effDurs c durs sD).2.1
          ((effDurs c durs sD).1 + (effDurs c durs sD).2.1 + (effDurs c durs sD).2.2)
          c.n (gtO.getD gD) (cohO.getD cD) noise } := rfl

lemma new_trial_durs (c : Config) (f s d : ℚ) (gtO : Option ℕ) (cohO : Option ℚ)
    (sD : ℚ) (gD : ℕ) (cD : ℚ) (noise : ℕ → ℕ → ℚ) :
    new_trial c (some (f, s, d)) gtO cohO sD gD cD noise =
      { tmax := f + s + d, fixation_0 := 0, fixation_1 := f, stimulus_0 := f,
        stimulus_1 := f + s, decision_0 := f + s, decision_1 := f + s + d,
        ground_truth := gtO.getD gD, coh := cohO.getD cD,
        obs := mkObs c.dt f s (f + s + d) c.n (gtO.getD gD) (cohO.getD cD) noise } := rfl

lemma nalt_step_else (c : Config) (tr : TrialVars) (t : ℚ) (action : ℕ)
    (h1 : ¬(tr.fixation_0 ≤ t ∧ t < tr.fixation_1))
    (h2 : ¬(tr.decision_0 ≤ t ∧ t < tr.decision_1))
    (h3 : ¬tr.tmax ≤ t) :
    nalt_step c tr t action =
      ⟨0, false, (List.replicate (c.n + 1) (0 : ℚ)).set 0 1, (Int.floor (t / c.dt)).toNat⟩ := by
  unfold nalt_step tasktools_new_trial
  rw [if_neg h1, if_neg h2]
  dsimp only
  rw [if_neg (fun h => h3 h.1)]

lemma nalt_step_fix (c : Config) (tr : TrialVars) (t : ℚ) (action : ℕ)
    (h1 : tr.fixation_0 ≤ t ∧ t < tr.fixation_1) (ha : action ≠ 0)
    (h3 : ¬tr.tmax ≤ t) :
    nalt_step c tr t action =
      ⟨c.R_ABORTED, c.abort, (List.replicate (c.n + 1) (0 : ℚ)).set 0 1,
        (Int.floor (t / c.dt)).toNat⟩ := by
  unfold nalt_step tasktools_new_trial
  rw [if_pos h1, if_pos ha]
  dsimp only
  rw [if_neg (fun h => h3 h.1)]

lemma nalt_step_dec (c : Config) (tr : TrialVars) (t : ℚ) (action : ℕ)
    (h1 : ¬(tr.fixation_0 ≤ t ∧ t < tr.fixation_1))
    (h2 : tr.decision_0 ≤ t ∧ t < tr.decision_1)
    (h3 : ¬tr.tmax ≤ t) :
    nalt_step c tr t action =
      ⟨if tr.ground_truth = action then c.R_CORRECT
        else if tr.ground_truth ≠ 0 then c.R_FAIL else 0,
       decide (action ≠ 0),
       (List.replicate (c.n + 1) (0 : ℚ)).set tr.ground_truth 1,
       (Int.floor (t / c.dt)).toNat⟩ := by
  unfold nalt_step tasktools_new_trial
  rw [if_neg h1, if_pos h2]
  dsimp only
  rw [if_neg (fun h => h3 h.1)]

lemma nalt_step_miss (c : Config) (tr : TrialVars) (t : ℚ) (action : ℕ)
    (h1 : ¬(tr.fixation_0 ≤ t ∧ t < tr.fixation_1))
    (h2 : ¬(tr.decision_0 ≤ t ∧ t < tr.decision_1))
    (h3 : tr.tmax ≤ t) :
    nalt_step c tr t action =
      ⟨c.R_MISS, true, (List.replicate (c.n + 1) (0 : ℚ)).set 0 1,
        (Int.floor (t / c.dt)).toNat⟩ := by
  unfold nalt_step tasktools_new_trial
  rw [if_neg h1, if_neg h2]
  dsimp only
  rw [if_pos ⟨h3, rfl⟩]

lemma nalt_step_gt (c : Config) (tr : TrialVars) (t : ℚ) (action : ℕ) :
    (nalt_step c tr t action).gt =
      if tr.fixation_0 ≤ t ∧ t < tr.fixation_1 then
        (List.replicate (c.n + 1) (0 : ℚ)).set 0 1
      else if tr.decision_0 ≤ t ∧ t < tr.decision_1 then
        (List.replicate (c.n + 1) (0 : ℚ)).set tr.ground_truth 1
      else (List.replicate (c.n + 1) (0 : ℚ)).set 0 1 := by
  unfold nalt_step tasktools_new_trial
  dsimp only
  split_ifs <;> rfl

lemma mkObs_length (dt f s tmax : ℚ) (n g : ℕ) (coh : ℚ) (noise : ℕ → ℕ → ℚ) :
    (mkObs dt f s tmax n g coh noise).length = numSteps tmax dt := by
  simp [mkObs]

lemma mkObs_row (dt f s tmax : ℚ) (n g : ℕ) (coh : ℚ) (noise : ℕ → ℕ → ℚ) (k : ℕ)
    (hk : k < numSteps tmax dt) :
    (mkObs dt f s tmax n g coh noise).getD k [] =
      (List.range (n + 1)).map fun j => obsEntry dt f s g coh noise k j := by
  unfold mkObs
  rw [List.getD_eq_getElem _ _ (by simpa using hk), List.getElem_map, List.getElem_range]

lemma mkObs_at (dt f s tmax : ℚ) (n g : ℕ) (coh : ℚ) (noise : ℕ → ℕ → ℚ) (k j : ℕ)
    (hk : k < numSteps tmax dt) (hj : j < n + 1) :
    ((mkObs dt f s tmax n g coh noise).getD k []).getD j 0 =
      obsEntry dt f s g coh noise k j := by
  rw [mkObs_row dt f s tmax n g coh noise k hk,
    List.getD_eq_getElem _ _ (by simpa using hj), List.getElem_map, List.getElem_range]

lemma oneHot_getD (n hot j : ℕ) (hhot : hot < n + 1) :
    ((List.replicate (n + 1) (0 : ℚ)).set hot 1).getD j 0 =
      if j = hot ∧ j < n + 1 then 1 else 0 := by
  by_cases hj : j < n + 1
  · rw [List.getD_eq_getElem _ _ (by simpa using hj)]
    by_cases hej : j = hot
    · subst hej
      rw [List.getElem_set_self _]
      simp [hj]
    · rw [List.getElem_set_ne (fun h => hej h.symm) _, List.getElem_replicate _]
      simp [hej]
  · rw [getD_out _ _ _ (by simpa using Nat.le_of_not_lt hj)]
    simp [hj]

/-! ## Claim theorems -/

/-- Claim C1, counterexample.  The claim states that a non-zero action
at an elapsed time inside the stimulus interval [fixation,
fixation+stimulus) is treated identically to an abort during fixation
(reward `R_ABORTED`, abort flagged).  On the code this is false: with
fixation = 100, stimulus = 200, decision = 200, at `t = 100` (inside
the stimulus interval) and action 1, the step falls to the `else`
branch, the reward is `0` (not the abort penalty `-1/10`) and no abort
is flagged. -/
theorem stimulus_action_not_aborted_cex :
    (nalt_step defaultConfig
        (new_trial defaultConfig (some (100, 200, 200)) (some 2) (some 0) 0 0 0 fun _ _ => 0)
        100 1).reward ≠ defaultConfig.R_ABORTED ∧
      (nalt_step defaultConfig
        (new_trial defaultConfig (some (100, 200, 200)) (some 2) (some 0) 0 0 0 fun _ _ => 0)
        100 1).new_trial = false := by
  rw [new_trial_durs, nalt_step_else]
  · refine ⟨?_, rfl⟩
    norm_num [defaultConfig, mkConfig]
  · dsimp only
    rintro ⟨-, hlt⟩
    norm_num at hlt
  · dsimp only
    rintro ⟨hge, -⟩
    norm_num at hge
  · dsimp only
    norm_num

/-- Claim C1, amended.  A step at an elapsed time inside the stimulus
interval [fixation, fixation+stimulus) is NOT treated as an abort,
whatever the action: it falls to the `else` branch of `_step`, the
reward is `0` and no trial end is flagged.  The abort treatment
(reward `R_ABORTED`) applies only to the fixation interval
[0, fixation). -/
theorem stimulus_interval_no_abort (c : Config) (f s d t : ℚ) (g : ℕ) (coh : ℚ)
    (noise : ℕ → ℕ → ℚ) (action : ℕ) (hd : 0 ≤ d)
    (h1 : f ≤ t) (h2 : t < f + s) :
    (nalt_step c (new_trial c (some (f, s, d)) (some g) (some coh) 0 0 0 noise) t
        action).reward = 0 ∧
    (nalt_step c (new_trial c (some (f, s, d)) (some g) (some coh) 0 0 0 noise) t
        action).new_trial = false ∧
    (∀ t2 : ℚ, 0 ≤ t2 → t2 < f → action ≠ 0 →
      (nalt_step c (new_trial c (some (f, s, d)) (some g) (some coh) 0 0 0 noise) t2
        action).reward = c.R_ABORTED) := by
  rw [new_trial_durs, nalt_step_else]
  · refine ⟨rfl, rfl, ?_⟩
    intro t2 ht0 htf ha
    rw [nalt_step_fix]
    · exact ⟨ht0, htf⟩
    · exact ha
    · dsimp only
      intro hge
      linarith
  · dsimp only
    rintro ⟨-, hlt⟩
    linarith
  · dsimp only
    rintro ⟨hge, -⟩
    linarith
  · dsimp only
    intro hge
    linarith

/-- Witness for `stimulus_interval_no_abort` at fixation 100, stimulus
200, decision 200, `t = 100`, ground truth 2, action 1, abort check at
`t2 = 0`. -/
theorem stimulus_interval_no_abort_witness :
    (nalt_step defaultConfig
        (new_trial defaultConfig (some (100, 200, 200)) (some 2) (some 5) 0 0 0 fun _ _ => 0)
        100 1).reward = 0 ∧
    (nalt_step defaultConfig
        (new_trial defaultConfig (some (100, 200, 200)) (some 2) (some 5) 0 0 0 fun _ _ => 0)
        100 1).new_trial = false ∧
    (∀ t2 : ℚ, 0 ≤ t2 → t2 < 100 → (1 : ℕ) ≠ 0 →
      (nalt_step defaultConfig
        (new_trial defaultConfig (some (100, 200, 200)) (some 2) (some 5) 0 0 0 fun _ _ => 0)
        t2 1).reward = defaultConfig.R_ABORTED) :=
  stimulus_interval_no_abort defaultConfig 100 200 200 100 2 5 (fun _ _ => 0) 1
    (by norm_num) (by norm_num) (by norm_num)

/-- Claim C2 (confirmed).  During the decision interval
[fixation+stimulus, fixation+stimulus+decision), the reward is the
correct reward when the action equals the (non-zero) ground truth and
the failure reward otherwise, and the trial-end flag is set exactly
for non-zero actions.  The end-of-trial override of
`tasktools.new_trial` (modelled from the spec, see
`tasktools_new_trial`) cannot fire here since `t < tmax`. -/
theorem decision_interval_reward (c : Config) (f s d t : ℚ) (g : ℕ) (coh : ℚ)
    (noise : ℕ → ℕ → ℚ) (action : ℕ) (hs : 0 ≤ s) (hg : 1 ≤ g)
    (h1 : f + s ≤ t) (h2 : t < f + s + d) :
    (nalt_step c (new_trial c (some (f, s, d)) (some g) (some coh) 0 0 0 noise) t
        action).reward = (if g = action then c.R_CORRECT else c.R_FAIL) ∧
    (nalt_step c (new_trial c (some (f, s, d)) (some g) (some coh) 0 0 0 noise) t
        action).new_trial = decide (action ≠ 0) := by
  rw [new_trial_durs, nalt_step_dec]
  · refine ⟨?_, rfl⟩
    dsimp only [Option.getD_some]
    by_cases hga : g = action
    · rw [if_pos hga, if_pos hga]
    · rw [if_neg hga, if_neg hga, if_pos (Nat.one_le_iff_ne_zero.mp hg)]
  · dsimp only
    rintro ⟨-, hlt⟩
    linarith
  · exact ⟨h1, h2⟩
  · dsimp only
    intro hge
    linarith

/-- Witness for `decision_interval_reward`: correct action 2 at
`t = 300` with fixation 100, stimulus 200, decision 200, ground truth
2. -/
theorem decision_interval_reward_witness :
    (nalt_step defaultConfig
        (new_trial defaultConfig (some (100, 200, 200)) (some 2) (some 0) 0 0 0 fun _ _ => 0)
        300 2).reward = (if 2 = 2 then defaultConfig.R_CORRECT else defaultConfig.R_FAIL) ∧
    (nalt_step defaultConfig
        (new_trial defaultConfig (some (100, 200, 200)) (some 2) (some 0) 0 0 0 fun _ _ => 0)
        300 2).new_trial = decide ((2 : ℕ) ≠ 0) :=
  decision_interval_reward defaultConfig 100 200 200 300 2 0 (fun _ _ => 0) 2
    (by norm_num) (by norm_num) (by norm_num) (by norm_num)

/-- Claim C3 (confirmed; the override itself is modelled from the spec
since `tasktools.new_trial` is not under src/).  Whenever elapsed time
reaches or exceeds the total trial duration without an action having
ended the trial, the step falls outside both reward windows and the
uniform post-hoc override of `tasktools_new_trial` replaces the reward
by `R_MISS` and forces the trial to end — whatever reward the
phase-specific computation produced. -/
theorem miss_override_forces_end (c : Config) (f s d t : ℚ) (g : ℕ) (coh : ℚ)
    (noise : ℕ → ℕ → ℚ) (action : ℕ) (hs : 0 ≤ s) (hd : 0 ≤ d)
    (ht : f + s + d ≤ t) :
    (nalt_step c (new_trial c (some (f, s, d)) (some g) (some coh) 0 0 0 noise) t
        action).reward = c.R_MISS ∧
    (nalt_step c (new_trial c (some (f, s, d)) (some g) (some coh) 0 0 0 noise) t
        action).new_trial = true ∧
    (∀ r : ℚ, tasktools_new_trial t (f + s + d) c.dt false c.R_MISS r = (c.R_MISS, true)) := by
  rw [new_trial_durs, nalt_step_miss]
  · refine ⟨rfl, rfl, ?_⟩
    intro r
    unfold tasktools_new_trial
    rw [if_pos ⟨ht, rfl⟩]
  · dsimp only
    rintro ⟨-, hlt⟩
    linarith
  · dsimp only
    rintro ⟨-, hlt⟩
    linarith
  · exact ht

/-- Witness for `miss_override_forces_end` at `t = 500` with
fixation 100, stimulus 200, decision 200 and action 0. -/
theorem miss_override_forces_end_witness :
    (nalt_step defaultConfig
        (new_trial defaultConfig (some (100, 200, 200)) (some 2) (some 0) 0 0 0 fun _ _ => 0)
        500 0).reward = defaultConfig.R_MISS ∧
    (nalt_step defaultConfig
        (new_trial defaultConfig (some (100, 200, 200)) (some 2) (some 0) 0 0 0 fun _ _ => 0)
        500 0).new_trial = true ∧
    (∀ r : ℚ, tasktools_new_trial 500 (100 + 200 + 200) defaultConfig.dt false
        defaultConfig.R_MISS r = (defaultConfig.R_MISS, true)) :=
  miss_override_forces_end defaultConfig 100 200 200 500 2 0 (fun _ _ => 0) 0
    (by norm_num) (by norm_num) (by norm_num)

/-- Claim C9 (confirmed).  For a non-zero action during the fixation
interval, the trial-end flag equals the `abort` configuration flag
(so it is signaled iff the flag is set), the abort penalty is paid
either way, and the constructor's default for the flag is `false`
(do not forcibly end the trial on abort). -/
theorem fixation_abort_polarity (c : Config) (f s d t : ℚ) (g : ℕ) (coh : ℚ)
    (noise : ℕ → ℕ → ℚ) (action : ℕ) (hs : 0 ≤ s) (hd : 0 ≤ d)
    (h0 : 0 ≤ t) (h1 : t < f) (ha : action ≠ 0) :
    (nalt_step c (new_trial c (some (f, s, d)) (some g) (some coh) 0 0 0 noise) t
        action).new_trial = c.abort ∧
    (nalt_step c (new_trial c (some (f, s, d)) (some g) (some coh) 0 0 0 noise) t
        action).reward = c.R_ABORTED ∧
    (∀ (dt0 : ℚ) (tm : ℚ × ℚ × ℚ × ℚ × ℚ) (ev : ℚ) (m : ℕ),
      (mkConfig dt0 tm ev m).abort = false) := by
  rw [new_trial_durs, nalt_step_fix]
  · exact ⟨rfl, rfl, fun _ _ _ _ => rfl⟩
  · exact ⟨h0, h1⟩
  · exact ha
  · dsimp only
    intro hge
    linarith

/-- Witness for `fixation_abort_polarity` at `t = 0`, action 1, with
the default configuration (`abort = false`). -/
theorem fixation_abort_polarity_witness :
    (nalt_step defaultConfig
        (new_trial defaultConfig (some (100, 200, 200)) (some 2) (some 0) 0 0 0 fun _ _ => 0)
        0 1).new_trial = defaultConfig.abort ∧
    (nalt_step defaultConfig
        (new_trial defaultConfig (some (100, 200, 200)) (some 2) (some 0) 0 0 0 fun _ _ => 0)
        0 1).reward = defaultConfig.R_ABORTED ∧
    (∀ (dt0 : ℚ) (tm : ℚ × ℚ × ℚ × ℚ × ℚ) (ev : ℚ) (m : ℕ),
      (mkConfig dt0 tm ev m).abort = false) :=
  fixation_abort_polarity defaultConfig 100 200 200 0 2 0 (fun _ _ => 0) 1
    (by norm_num) (by norm_num) (by norm_num) (by norm_num) (by norm_num)

/-- Claim C10 (confirmed).  The `gt` vector returned by `_step` has
length `num_choices + 1` and is exactly one-hot: the ground-truth
index is hot at elapsed times inside the decision interval, and index
0 is hot at all other times (fixation, stimulus, and at or beyond the
end of the decision window). -/
theorem gt_vector_one_hot (c : Config) (f s d t : ℚ) (g : ℕ) (coh : ℚ)
    (noise : ℕ → ℕ → ℚ) (action j : ℕ) (hs : 0 ≤ s) (hg : g ≤ c.n) (hj : j ≤ c.n) :
    (nalt_step c (new_trial c (some (f, s, d)) (some g) (some coh) 0 0 0 noise) t
        action).gt.length = c.n + 1 ∧
    (nalt_step c (new_trial c (some (f, s, d)) (some g) (some coh) 0 0 0 noise) t
        action).gt.getD j 0 =
      (if f + s ≤ t ∧ t < f + s + d then (if j = g then 1 else 0)
       else (if j = 0 then 1 else 0)) := by
  rw [new_trial_durs, nalt_step_gt]
  dsimp only [Option.getD_some]
  constructor
  · split_ifs <;> simp
  · by_cases hdec : f + s ≤ t ∧ t < f + s + d
    · have hfix : ¬((0 : ℚ) ≤ t ∧ t < f) := by
        rintro ⟨-, hlt⟩
        have := hdec.1
        linarith
      rw [if_neg hfix, if_pos hdec, if_pos hdec,
        oneHot_getD c.n g j (by omega)]
      simp [Nat.lt_succ_iff, hj]
    · rw [if_neg hdec]
      by_cases hfix : (0 : ℚ) ≤ t ∧ t < f
      · rw [if_pos hfix, if_neg hdec, oneHot_getD c.n 0 j (by omega)]
        simp [Nat.lt_succ_iff, hj]
      · rw [if_neg hfix, if_neg hdec, oneHot_getD c.n 0 j (by omega)]
        simp [Nat.lt_succ_iff, hj]

/-- Witness for `gt_vector_one_hot` at a decision-phase time
(`t = 300`), inspecting index `j = 2` (the hot ground-truth index). -/
theorem gt_vector_one_hot_witness :
    (nalt_step defaultConfig
        (new_trial defaultConfig (some (100, 200, 200)) (some 2) (some 0) 0 0 0 fun _ _ => 0)
        300 1).gt.length = defaultConfig.n + 1 ∧
    (nalt_step defaultConfig
        (new_trial defaultConfig (some (100, 200, 200)) (some 2) (some 0) 0 0 0 fun _ _ => 0)
        300 1).gt.getD 2 0 =
      (if (100 : ℚ) + 200 ≤ 300 ∧ (300 : ℚ) < 100 + 200 + 200 then (if 2 = 2 then 1 else 0)
       else (if 2 = 0 then 1 else 0)) :=
  gt_vector_one_hot defaultConfig 100 200 200 300 2 0 (fun _ _ => 0) 1 2
    (by norm_num) (by norm_num [defaultConfig, mkConfig]) (by norm_num [defaultConfig, mkConfig])

/-- Claim C7, counterexample.  The claim states that a configured phase
duration ≤ 0 or `num_choices < 2` raises a configuration error at
construction time.  On the code this is false: the constructor
performs no validation — constructing with fixation = 0, decision = 0
and `n_ch = 1` succeeds. -/
theorem init_validation_cex :
    (nalt_RDM_init 100 (0, 80, 330, 1500, 0) 1 1).isOk = true := rfl

/-- Claim C7, amended.  Construction never fails, for any inputs (the
constructor performs no validation and the error is not deferred to
`_step` either, which is total); a fixation, decision or mean-stimulus
duration equal to 0 is flagged only by the warning banner of
`__str__`, and `num_choices < 2` is not checked anywhere. -/
theorem init_never_fails (dt : ℚ) (timing : ℚ × ℚ × ℚ × ℚ × ℚ) (stimEv : ℚ) (n_ch : ℕ) :
    (nalt_RDM_init dt timing stimEv n_ch).isOk = true ∧
    (∀ c0 : Config, nalt_RDM_init dt timing stimEv n_ch = Except.ok c0 →
      (str_warns c0 = true ↔
        (timing.1 = 0 ∨ timing.2.2.2.2 = 0 ∨ timing.2.2.1 = 0))) := by
  refine ⟨rfl, ?_⟩
  intro c0 h
  have hc : mkConfig dt timing stimEv n_ch = c0 := Except.ok.inj h
  subst hc
  simp [str_warns, mkConfig]

/-- Witness for `init_never_fails` at a configuration with zero
fixation and decision durations and a single choice. -/
theorem init_never_fails_witness :
    (nalt_RDM_init 100 (0, 80, 330, 1500, 0) 1 1).isOk = true ∧
    (str_warns (mkConfig 100 (0, 80, 330, 1500, 0) 1 1) = true ↔
      ((0 : ℚ) = 0 ∨ (0 : ℚ) = 0 ∨ (330 : ℚ) = 0)) :=
  ⟨(init_never_fails 100 (0, 80, 330, 1500, 0) 1 1).1,
   (init_never_fails 100 (0, 80, 330, 1500, 0) 1 1).2 (mkConfig 100 (0, 80, 330, 1500, 0) 1 1) rfl⟩

/-- Claim C8, counterexample.  The claim states that an action outside
`0..num_choices` is rejected explicitly.  On the code this is false:
with `num_choices = 3`, the out-of-range action 7 at a decision-phase
time is processed under the normal reward policy, with exactly the
same step result as the in-range incorrect action 3. -/
theorem out_of_range_action_cex :
    nalt_step defaultConfig
        (new_trial defaultConfig (some (100, 200, 200)) (some 2) (some 0) 0 0 0 fun _ _ => 0)
        300 7 =
      nalt_step defaultConfig
        (new_trial defaultConfig (some (100, 200, 200)) (some 2) (some 0) 0 0 0 fun _ _ => 0)
        300 3 := by
  rw [new_trial_durs, nalt_step_dec, nalt_step_dec]
  · norm_num
  · dsimp only
    rintro ⟨-, hlt⟩
    norm_num at hlt
  · dsimp only
    norm_num
  · dsimp only
    norm_num
  · dsimp only
    rintro ⟨-, hlt⟩
    norm_num at hlt
  · dsimp only
    norm_num
  · dsimp only
    norm_num

/-- Claim C8, amended.  The implementation performs no action
validation: an out-of-range action (`action > num_choices`) is not
rejected but processed under the normal reward policy — during the
decision window it earns the failure reward and ends the trial,
exactly like any in-range incorrect non-zero action. -/
theorem out_of_range_action_processed (c : Config) (f s d t : ℚ) (g : ℕ) (coh : ℚ)
    (noise : ℕ → ℕ → ℚ) (action : ℕ) (hs : 0 ≤ s) (hg : 1 ≤ g)
    (hrange : c.n < action) (hga : g ≠ action)
    (h1 : f + s ≤ t) (h2 : t < f + s + d) :
    (nalt_step c (new_trial c (some (f, s, d)) (some g) (some coh) 0 0 0 noise) t
        action).reward = c.R_FAIL ∧
    (nalt_step c (new_trial c (some (f, s, d)) (some g) (some coh) 0 0 0 noise) t
        action).new_trial = true := by
  have ha0 : action ≠ 0 := by omega
  rw [new_trial_durs, nalt_step_dec]
  · dsimp only [Option.getD_some]
    rw [if_neg hga, if_pos (Nat.one_le_iff_ne_zero.mp hg)]
    simp [ha0]
  · dsimp only
    rintro ⟨-, hlt⟩
    linarith
  · exact ⟨h1, h2⟩
  · dsimp only
    intro hge
    linarith

/-- Witness for `out_of_range_action_processed`: action 7 with
`num_choices = 3` at decision time `t = 300`. -/
theorem out_of_range_action_processed_witness :
    (nalt_step defaultConfig
        (new_trial defaultConfig (some (100, 200, 200)) (some 2) (some 0) 0 0 0 fun _ _ => 0)
        300 7).reward = defaultConfig.R_FAIL ∧
    (nalt_step defaultConfig
        (new_trial defaultConfig (some (100, 200, 200)) (some 2) (some 0) 0 0 0 fun _ _ => 0)
        300 7).new_trial = true :=
  out_of_range_action_processed defaultConfig 100 200 200 300 2 0 (fun _ _ => 0) 7
    (by norm_num) (by norm_num) (by norm_num [defaultConfig, mkConfig]) (by norm_num)
    (by norm_num) (by norm_num)

/-- Claim C4 (confirmed; the Gaussian law of the noise is outside the
embedding — the per-timestep noise draw enters as the abstract additive
term `noise k j`, the value `np.random.randn(...) * self.sigma_dt`).
For a generated trial: column 0 equals 1 at every timestep inside
fixation ∪ stimulus; at stimulus-phase timesteps every non-fixation
column `j ≠ ground_truth` holds `(1 - coh/100)/2` plus its noise term
and the ground-truth column holds `(1 + coh/100)/2` plus its noise
term; stripping the noise, the ground-truth column strictly exceeds
every other non-fixation column whenever `coh > 0`, and at `coh = 0`
all non-fixation columns are exactly `1/2`. -/
theorem obs_structure (c : Config) (f s d coh : ℚ) (g : ℕ) (noise : ℕ → ℕ → ℚ) (k j : ℕ)
    (hdt : 0 < c.dt) (hg1 : 1 ≤ g) (hg2 : g ≤ c.n) (hj1 : 1 ≤ j) (hj2 : j ≤ c.n)
    (hjg : j ≠ g) (hk : k < numSteps (f + s + d) c.dt) :
    ((k : ℚ) * c.dt < f + s →
      obsAt (new_trial c (some (f, s, d)) (some g) (some coh) 0 0 0 noise) k 0 = 1) ∧
    (f ≤ (k : ℚ) * c.dt → (k : ℚ) * c.dt < f + s →
      obsAt (new_trial c (some (f, s, d)) (some g) (some coh) 0 0 0 noise) k j
          = (1 - coh / 100) / 2 + noise k j ∧
      obsAt (new_trial c (some (f, s, d)) (some g) (some coh) 0 0 0 noise) k g
          = (1 + coh / 100) / 2 + noise k g) ∧
    (0 < coh → f ≤ (k : ℚ) * c.dt → (k : ℚ) * c.dt < f + s →
      obsAt (new_trial c (some (f, s, d)) (some g) (some coh) 0 0 0 fun _ _ => 0) k j
        < obsAt (new_trial c (some (f, s, d)) (some g) (some coh) 0 0 0 fun _ _ => 0) k g) ∧
    (coh = 0 → f ≤ (k : ℚ) * c.dt → (k : ℚ) * c.dt < f + s →
      obsAt (new_trial c (some (f, s, d)) (some g) (some coh) 0 0 0 fun _ _ => 0) k j
          = 1 / 2 ∧
      obsAt (new_trial c (some (f, s, d)) (some g) (some coh) 0 0 0 fun _ _ => 0) k g
          = 1 / 2) := by
  have hval : ∀ (ns : ℕ → ℕ → ℚ) (j0 : ℕ), j0 < c.n + 1 →
      obsAt (new_trial c (some (f, s, d)) (some g) (some coh) 0 0 0 ns) k j0 =
        obsEntry c.dt f s g coh ns k j0 := by
    intro ns j0 hj0
    rw [new_trial_durs]
    unfold obsAt
    dsimp only [Option.getD_some]
    exact mkObs_at c.dt f s (f + s + d) c.n g coh ns k j0 hk hj0
  have ht0 : (0 : ℚ) ≤ (k : ℚ) * c.dt := mul_nonneg (Nat.cast_nonneg k) hdt.le
  have hg0 : ¬(0 = g) := fun h => Nat.one_le_iff_ne_zero.mp hg1 h.symm
  have hj0 : ¬(j = 0) := Nat.one_le_iff_ne_zero.mp hj1
  refine ⟨?_, ?_, ?_, ?_⟩
  · intro hlt
    rw [hval noise 0 (by omega)]
    unfold obsEntry stimValue
    dsimp only
    by_cases hst : f ≤ (k : ℚ) * c.dt ∧ (k : ℚ) * c.dt < f + s
    · rw [if_pos hst, if_neg hg0, if_pos rfl, if_neg (by omega : ¬(1 ≤ 0))]
      norm_num
    · have hltf : (k : ℚ) * c.dt < f := by
        rcases not_and_or.mp hst with h | h
        · exact lt_of_not_le h
        · exact absurd hlt h
      rw [if_neg hst, if_pos ⟨ht0, hltf⟩, if_pos rfl]
  · intro hge hlt
    constructor
    · rw [hval noise j (by omega)]
      unfold obsEntry stimValue
      dsimp only
      rw [if_pos ⟨hge, hlt⟩, if_neg hjg, if_neg hj0, if_pos hj1]
    · rw [hval noise g (by omega)]
      unfold obsEntry stimValue
      dsimp only
      rw [if_pos ⟨hge, hlt⟩, if_pos rfl, if_pos hg1]
  · intro hcoh hge hlt
    rw [hval (fun _ _ => 0) j (by omega), hval (fun _ _ => 0) g (by omega)]
    unfold obsEntry stimValue
    dsimp only
    rw [if_pos ⟨hge, hlt⟩, if_neg hjg, if_neg hj0, if_pos hj1,
      if_pos ⟨hge, hlt⟩, if_pos rfl, if_pos hg1]
    linarith
  · intro hcoh hge hlt
    rw [hval (fun _ _ => 0) j (by omega), hval (fun _ _ => 0) g (by omega)]
    unfold obsEntry stimValue
    dsimp only
    rw [if_pos ⟨hge, hlt⟩, if_neg hjg, if_neg hj0, if_pos hj1,
      if_pos ⟨hge, hlt⟩, if_pos rfl, if_pos hg1, hcoh]
    norm_num

/-- Witness for `obs_structure` at fixation 100, stimulus 200,
decision 200, coherence 10, ground truth 2, column 1, timestep 1
(elapsed time 100, inside the stimulus phase). -/
theorem obs_structure_witness :
    (((1 : ℕ) : ℚ) * defaultConfig.dt < 100 + 200 →
      obsAt (new_trial defaultConfig (some (100, 200, 200)) (some 2) (some 10) 0 0 0 fun _ _ => 0)
        1 0 = 1) ∧
    ((100 : ℚ) ≤ ((1 : ℕ) : ℚ) * defaultConfig.dt → ((1 : ℕ) : ℚ) * defaultConfig.dt < 100 + 200 →
      obsAt (new_trial defaultConfig (some (100, 200, 200)) (some 2) (some 10) 0 0 0 fun _ _ => 0)
          1 1 = (1 - 10 / 100) / 2 + 0 ∧
      obsAt (new_trial defaultConfig (some (100, 200, 200)) (some 2) (some 10) 0 0 0 fun _ _ => 0)
          1 2 = (1 + 10 / 100) / 2 + 0) ∧
    ((0 : ℚ) < 10 → (100 : ℚ) ≤ ((1 : ℕ) : ℚ) * defaultConfig.dt →
        ((1 : ℕ) : ℚ) * defaultConfig.dt < 100 + 200 →
      obsAt (new_trial defaultConfig (some (100, 200, 200)) (some 2) (some 10) 0 0 0 fun _ _ => 0)
          1 1 <
      obsAt (new_trial defaultConfig (some (100, 200, 200)) (some 2) (some 10) 0 0 0 fun _ _ => 0)
          1 2) ∧
    ((10 : ℚ) = 0 → (100 : ℚ) ≤ ((1 : ℕ) : ℚ) * defaultConfig.dt →
        ((1 : ℕ) : ℚ) * defaultConfig.dt < 100 + 200 →
      obsAt (new_trial defaultConfig (some (100, 200, 200)) (some 2) (some 10) 0 0 0 fun _ _ => 0)
          1 1 = 1 / 2 ∧
      obsAt (new_trial defaultConfig (some (100, 200, 200)) (some 2) (some 10) 0 0 0 fun _ _ => 0)
          1 2 = 1 / 2) :=
  obs_structure defaultConfig 100 200 200 10 2 (fun _ _ => 0) 1 1
    (by norm_num [defaultConfig, mkConfig]) (by norm_num) (by norm_num [defaultConfig, mkConfig])
    (by norm_num) (by norm_num [defaultConfig, mkConfig]) (by norm_num)
    (by norm_num [numSteps, defaultConfig, mkConfig, Int.toNat_ofNat])

/-- Claim C5 (confirmed).  For every trial produced by `new_trial`,
with or without duration overrides, the observation sequence length
equals `ceil(total_duration / timestep)` with
`total_duration = fixation + stimulus + decision`, and the three phase
intervals are contiguous, cover `[0, total_duration)`, and are
pairwise disjoint (the fixation/decision disjointness uses that the
effective stimulus duration is nonnegative). -/
theorem trial_partition (c : Config) (durs : Option (ℚ × ℚ × ℚ)) (gtO : Option ℕ)
    (cohO : Option ℚ) (sD : ℚ) (gD : ℕ) (cD : ℚ) (noise : ℕ → ℕ → ℚ)
    (hs : 0 ≤ (effDurs c durs sD).2.1) :
    (new_trial c durs gtO cohO sD gD cD noise).obs.length =
      (Int.ceil (((effDurs c durs sD).1 + (effDurs c durs sD).2.1 +
        (effDurs c durs sD).2.2) / c.dt)).toNat ∧
    (new_trial c durs gtO cohO sD gD cD noise).fixation_0 = 0 ∧
    (new_trial c durs gtO cohO sD gD cD noise).fixation_1 =
      (new_trial c durs gtO cohO sD gD cD noise).stimulus_0 ∧
    (new_trial c durs gtO cohO sD gD cD noise).stimulus_1 =
      (new_trial c durs gtO cohO sD gD cD noise).decision_0 ∧
    (new_trial c durs gtO cohO sD gD cD noise).decision_1 =
      (new_trial c durs gtO cohO sD gD cD noise).tmax ∧
    (∀ t : ℚ, 0 ≤ t → t < (new_trial c durs gtO cohO sD gD cD noise).tmax →
      (((new_trial c durs gtO cohO sD gD cD noise).fixation_0 ≤ t ∧
          t < (new_trial c durs gtO cohO sD gD cD noise).fixation_1) ∨
       ((new_trial c durs gtO cohO sD gD cD noise).stimulus_0 ≤ t ∧
          t < (new_trial c durs gtO cohO sD gD cD noise).stimulus_1) ∨
       ((new_trial c durs gtO cohO sD gD cD noise).decision_0 ≤ t ∧
          t < (new_trial c durs gtO cohO sD gD cD noise).decision_1))) ∧
    (∀ t : ℚ,
      ¬(((new_trial c durs gtO cohO sD gD cD noise).fixation_0 ≤ t ∧
          t < (new_trial c durs gtO cohO sD gD cD noise).fixation_1) ∧
        ((new_trial c durs gtO cohO sD gD cD noise).stimulus_0 ≤ t ∧
          t < (new_trial c durs gtO cohO sD gD cD noise).stimulus_1)) ∧
      ¬(((new_trial c durs gtO cohO sD gD cD noise).stimulus_0 ≤ t ∧
          t < (new_trial c durs gtO cohO sD gD cD noise).stimulus_1) ∧
        ((new_trial c durs gtO cohO sD gD cD noise).decision_0 ≤ t ∧
          t < (new_trial c durs gtO cohO sD gD cD noise).decision_1)) ∧
      ¬(((new_trial c durs gtO cohO sD gD cD noise).fixation_0 ≤ t ∧
          t < (new_trial c durs gtO cohO sD gD cD noise).fixation_1) ∧
        ((new_trial c durs gtO cohO sD gD cD noise).decision_0 ≤ t ∧
          t < (new_trial c durs gtO cohO sD gD cD noise).decision_1))) := by
  rw [new_trial_eq]
  dsimp only
  refine ⟨?_, rfl, rfl, rfl, rfl, ?_, ?_⟩
  · rw [mkObs_length]
    rfl
  · intro t ht0 htmax
    by_cases h1 : t < (effDurs c durs sD).1
    · exact Or.inl ⟨ht0, h1⟩
    · by_cases h2 : t < (effDurs c durs sD).1 + (effDurs c durs sD).2.1
      · exact Or.inr (Or.inl ⟨le_of_not_lt h1, h2⟩)
      · exact Or.inr (Or.inr ⟨le_of_not_lt h2, htmax⟩)
  · intro t
    refine ⟨?_, ?_, ?_⟩
    · rintro ⟨⟨-, ha⟩, ⟨hb, -⟩⟩
      linarith
    · rintro ⟨⟨-, ha⟩, ⟨hb, -⟩⟩
      linarith
    · rintro ⟨⟨-, ha⟩, ⟨hb, -⟩⟩
      linarith

/-- Witness for `trial_partition` with no duration override (stimulus
draw 200), checking the length equation and coverage at `t = 550`. -/
theorem trial_partition_witness :
    (0 : ℚ) ≤ (effDurs defaultConfig none 200).2.1 ∧
    (new_trial defaultConfig none none none 200 1 0 fun _ _ => 0).obs.length =
      (Int.ceil (((effDurs defaultConfig none 200).1 + (effDurs defaultConfig none 200).2.1 +
        (effDurs defaultConfig none 200).2.2) / defaultConfig.dt)).toNat ∧
    (((new_trial defaultConfig none none none 200 1 0 fun _ _ => 0).fixation_0 ≤ 550 ∧
        (550 : ℚ) < (new_trial defaultConfig none none none 200 1 0 fun _ _ => 0).fixation_1) ∨
     ((new_trial defaultConfig none none none 200 1 0 fun _ _ => 0).stimulus_0 ≤ 550 ∧
        (550 : ℚ) < (new_trial defaultConfig none none none 200 1 0 fun _ _ => 0).stimulus_1) ∨
     ((new_trial defaultConfig none none none 200 1 0 fun _ _ => 0).decision_0 ≤ 550 ∧
        (550 : ℚ) < (new_trial defaultConfig none none none 200 1 0 fun _ _ => 0).decision_1)) :=
  ⟨by norm_num [effDurs, defaultConfig, mkConfig],
   (trial_partition defaultConfig none none none 200 1 0 (fun _ _ => 0)
      (by norm_num [effDurs, defaultConfig, mkConfig])).1,
   (trial_partition defaultConfig none none none 200 1 0 (fun _ _ => 0)
      (by norm_num [effDurs, defaultConfig, mkConfig])).2.2.2.2.2.1 550 (by norm_num)
      (by rw [new_trial_eq]; norm_num [effDurs, defaultConfig, mkConfig])⟩

/-- Claim C6, counterexample.  The claim states that every randomness
draw, including the per-timestep observation noise, comes from the
single owned pseudo-random source, which would make the observation
sequence a function of the owned-source draws and the overrides alone.
On the code this is false: the noise is drawn from the separate global
numpy generator (`np.random.randn`), so two runs of `new_trial` with
identical owned-source draws and identical overrides but different
global-generator output produce different observation sequences. -/
theorem randomness_single_source_cex :
    new_trial (mkConfig 100 (100, 100, 100, 300, 100) 1 2) none none none 100 1 0
        (fun _ _ => 0) ≠
      new_trial (mkConfig 100 (100, 100, 100, 300, 100) 1 2) none none none 100 1 0
        (fun _ _ => 1) := by
  intro h
  have h2 := congrArg (fun tr => obsAt tr 1 1) h
  have e1 : obsAt (new_trial (mkConfig 100 (100, 100, 100, 300, 100) 1 2) none none none
      100 1 0 fun _ _ => 0) 1 1 = 1 / 2 := by
    norm_num [obsAt, new_trial, mkConfig, effDurs, mkObs, numSteps, obsEntry, stimValue]
  have e2 : obsAt (new_trial (mkConfig 100 (100, 100, 100, 300, 100) 1 2) none none none
      100 1 0 fun _ _ => 1) 1 1 = 3 / 2 := by
    norm_num [obsAt, new_trial, mkConfig, effDurs, mkObs, numSteps, obsEntry, stimValue]
  dsimp only at h2
  rw [e1, e2] at h2
  norm_num at h2

/-- Claim C6, amended.  The stimulus-duration, ground-truth and
coherence draws do come from the owned random source, but the
per-timestep observation noise comes from the separate global numpy
generator; consequently two runs of `new_trial` from identical
owned-source draws and identical overrides agree on all trial fields
(boundaries, ground truth, coherence, sequence length) and on every
observation entry except the noise-perturbed ones (non-fixation
columns at stimulus-phase timesteps). -/
theorem owned_source_determinism (c : Config) (durs : Option (ℚ × ℚ × ℚ)) (gtO : Option ℕ)
    (cohO : Option ℚ) (sD : ℚ) (gD : ℕ) (cD : ℚ) (noise1 noise2 : ℕ → ℕ → ℚ) :
    (new_trial c durs gtO cohO sD gD cD noise1).tmax =
      (new_trial c durs gtO cohO sD gD cD noise2).tmax ∧
    (new_trial c durs gtO cohO sD gD cD noise1).fixation_1 =
      (new_trial c durs gtO cohO sD gD cD noise2).fixation_1 ∧
    (new_trial c durs gtO cohO sD gD cD noise1).stimulus_1 =
      (new_trial c durs gtO cohO sD gD cD noise2).stimulus_1 ∧
    (new_trial c durs gtO cohO sD gD cD noise1).decision_1 =
      (new_trial c durs gtO cohO sD gD cD noise2).decision_1 ∧
    (new_trial c durs gtO cohO sD gD cD noise1).ground_truth =
      (new_trial c durs gtO cohO sD gD cD noise2).ground_truth ∧
    (new_trial c durs gtO cohO sD gD cD noise1).coh =
      (new_trial c durs gtO cohO sD gD cD noise2).coh ∧
    (new_trial c durs gtO cohO sD gD cD noise1).obs.length =
      (new_trial c durs gtO cohO sD gD cD noise2).obs.length ∧
    (∀ k j : ℕ,
      (j = 0 ∨
        ¬((new_trial c durs gtO cohO sD gD cD noise1).stimulus_0 ≤ (k : ℚ) * c.dt ∧
          (k : ℚ) * c.dt < (new_trial c durs gtO cohO sD gD cD noise1).stimulus_1)) →
      obsAt (new_trial c durs gtO cohO sD gD cD noise1) k j =
        obsAt (new_trial c durs gtO cohO sD gD cD noise2) k j) := by
  rw [new_trial_eq c durs gtO cohO sD gD cD noise1, new_trial_eq c durs gtO cohO sD gD cD noise2]
  dsimp only
  refine ⟨rfl, rfl, rfl, rfl, rfl, rfl, ?_, ?_⟩
  · rw [mkObs_length, mkObs_length]
  · intro k j hcond
    unfold obsAt
    dsimp only
    by_cases hk : k < numSteps ((effDurs c durs sD).1 + (effDurs c durs sD).2.1 +
        (effDurs c durs sD).2.2) c.dt
    · by_cases hj : j < c.n + 1
      · rw [mkObs_at _ _ _ _ _ _ _ _ _ _ hk hj, mkObs_at _ _ _ _ _ _ _ _ _ _ hk hj]
        unfold obsEntry
        dsimp only
        by_cases hst : (effDurs c durs sD).1 ≤ (k : ℚ) * c.dt ∧
            (k : ℚ) * c.dt < (effDurs c durs sD).1 + (effDurs c durs sD).2.1
        · rw [if_pos hst, if_pos hst]
          rcases hcond with hj0 | hnst
          · subst hj0
            rw [if_neg (by omega : ¬(1 ≤ 0)), if_neg (by omega : ¬(1 ≤ 0))]
          · exact absurd hst hnst
        · rw [if_neg hst, if_neg hst]
      · rw [mkObs_row _ _ _ _ _ _ _ _ _ hk, mkObs_row _ _ _ _ _ _ _ _ _ hk,
          getD_out _ _ _ (by simpa using Nat.le_of_not_lt hj),
          getD_out _ _ _ (by simpa using Nat.le_of_not_lt hj)]
    · have h1 : (mkObs c.dt (effDurs c durs sD).1 (effDurs c durs sD).2.1
          ((effDurs c durs sD).1 + (effDurs c durs sD).2.1 + (effDurs c durs sD).2.2) c.n
          (gtO.getD gD) (cohO.getD cD) noise1).getD k [] = ([] : List ℚ) :=
        getD_out _ _ _ (by rw [mkObs_length]; exact Nat.le_of_not_lt hk)
      have h2 : (mkObs c.dt (effDurs c durs sD).1 (effDurs c durs sD).2.1
          ((effDurs c durs sD).1 + (effDurs c durs sD).2.1 + (effDurs c durs sD).2.2) c.n
          (gtO.getD gD) (cohO.getD cD) noise2).getD k [] = ([] : List ℚ) :=
        getD_out _ _ _ (by rw [mkObs_length]; exact Nat.le_of_not_lt hk)
      rw [h1, h2]

/-- Witness for `owned_source_determinism` at timestep 0, column 0
(a noise-free entry). -/
theorem owned_source_determinism_witness :
    obsAt (new_trial defaultConfig none none none 200 1 0 fun _ _ => 0) 0 0 =
      obsAt (new_trial defaultConfig none none none 200 1 0 fun _ _ => 1) 0 0 :=
  (owned_source_determinism defaultConfig none none none 200 1 0 (fun _ _ => 0)
    (fun _ _ => 1)).2.2.2.2.2.2.2 0 0 (Or.inl rfl)

end NaltRDM
